import Mathlib

/-!
Verification of the Jenkins/Bitbucket reporting scripts.

Each definition below is a shallow embedding of a function (or a
module-level code fragment) of one of the Python scripts under
`src/python/`.  Python strings are modelled as `List Char`, Python's
`None`-able values as `Option`, the process-local `set` of external ids
as a `List` used only through membership and insertion, `uuid.uuid4()`
as an arbitrary stream `Nat → List Char` consumed one entry per call,
and the filesystem walk of `find_file_path` as an arbitrary lookup
function `List Char → Option (List Char)` (the filesystem is external
to the scripts).  HTTP responses are modelled as a function
`Nat → Bool` giving, per request index, whether the response was 2xx.
-/

/-- Python strings are modelled as lists of characters. -/
abbrev Str := List Char

/-- `chunk_annotations` (npm_audit.py lines 38-40, and the identical copies in
create_bitbucket_test_report.py, linting_error_report.py, Lint_groovy_report.py):
`for i in range(0, len(annotations), batch_size): yield annotations[i:i+batch_size]`.
A `batch_size` of 0 would make `range` raise `ValueError`; every caller passes 100. -/
def chunkAnnotations : List α → Nat → List (List α)
  | [], _ => []
  | _ :: _, 0 => []
  | a :: rest, b + 1 =>
      ((a :: rest).take (b + 1)) :: chunkAnnotations ((a :: rest).drop (b + 1)) (b + 1)
termination_by l _ => l.length
decreasing_by
  simp only [List.drop_succ_cons, List.length_drop, List.length_cons]
  omega

theorem chunkAnnotations_nil (b : Nat) : chunkAnnotations ([] : List α) b = [] := by
  cases b <;> rw [chunkAnnotations]

theorem chunkAnnotations_cons (a : α) (rest : List α) (b : Nat) :
    chunkAnnotations (a :: rest) (b + 1) =
      ((a :: rest).take (b + 1)) :: chunkAnnotations ((a :: rest).drop (b + 1)) (b + 1) := by
  rw [chunkAnnotations]

/-- Concatenating the chunks in order recovers the input list. -/
theorem chunkAnnotations_join (b : Nat) :
    ∀ (n : Nat) (l : List α), l.length ≤ n → (chunkAnnotations l (b + 1)).flatten = l := by
  intro n
  induction n with
  | zero =>
      intro l hl
      have : l = [] := List.eq_nil_of_length_eq_zero (Nat.le_zero.mp hl)
      subst this
      simp [chunkAnnotations_nil]
  | succ n ih =>
      intro l hl
      cases l with
      | nil => simp [chunkAnnotations_nil]
      | cons a rest =>
          rw [chunkAnnotations_cons]
          have hdrop : ((a :: rest).drop (b + 1)).length ≤ n := by
            simp only [List.length_drop, List.length_cons]
            simp only [List.length_cons] at hl
            omega
          simp only [List.flatten_cons, ih _ hdrop, List.take_append_drop]

/-- Every chunk has at most `b + 1` elements. -/
theorem chunkAnnotations_sizes (b : Nat) :
    ∀ (n : Nat) (l : List α), l.length ≤ n →
      ∀ c ∈ chunkAnnotations l (b + 1), c.length ≤ b + 1 := by
  intro n
  induction n with
  | zero =>
      intro l hl
      have : l = [] := List.eq_nil_of_length_eq_zero (Nat.le_zero.mp hl)
      subst this
      simp [chunkAnnotations_nil]
  | succ n ih =>
      intro l hl c hc
      cases l with
      | nil => simp [chunkAnnotations_nil] at hc
      | cons a rest =>
          rw [chunkAnnotations_cons, List.mem_cons] at hc
          rcases hc with hc | hc
          · subst hc
            simp [List.length_take_le]
          · have hdrop : ((a :: rest).drop (b + 1)).length ≤ n := by
              simp only [List.length_drop, List.length_cons]
              simp only [List.length_cons] at hl
              omega
            exact ih _ hdrop c hc

/-- The number of chunks is the ceiling of `length / (b + 1)`. -/
theorem chunkAnnotations_count (b : Nat) :
    ∀ (n : Nat) (l : List α), l.length ≤ n →
      (chunkAnnotations l (b + 1)).length = (l.length + b) / (b + 1) := by
  intro n
  induction n with
  | zero =>
      intro l hl
      have : l = [] := List.eq_nil_of_length_eq_zero (Nat.le_zero.mp hl)
      subst this
      simp [chunkAnnotations_nil, Nat.div_eq_of_lt (Nat.lt_succ_self b)]
  | succ n ih =>
      intro l hl
      cases l with
      | nil =>
          simp [chunkAnnotations_nil, Nat.div_eq_of_lt (Nat.lt_succ_self b)]
      | cons a rest =>
          rw [chunkAnnotations_cons]
          have hdrop : ((a :: rest).drop (b + 1)).length ≤ n := by
            simp only [List.length_drop, List.length_cons]
            simp only [List.length_cons] at hl
            omega
          simp only [List.length_cons, ih _ hdrop, List.length_drop]
          rcases le_or_lt (rest.length + 1) (b + 1) with hle | hlt
          · have h1 : rest.length + 1 - (b + 1) = 0 := by omega
            rw [h1]
            have h2 : (0 + b) / (b + 1) = 0 := by
              apply Nat.div_eq_of_lt
              omega
            rw [h2]
            have h3 : (rest.length + 1 + b) / (b + 1) = 1 :=
              Nat.div_eq_of_lt_le (by omega) (by omega)
            omega
          · have h1 : rest.length + 1 + b = (rest.length + 1 - (b + 1) + b) + (b + 1) := by
              omega
            rw [h1, Nat.add_div_right _ (Nat.succ_pos b)]

/-- C1: for an input list of size N, truncating to the first 1000 entries
(npm_audit.py line 118 `annotations[:max_annotations]`) and chunking with
batch size 100 (npm_audit.py lines 121, 38-40) yields ceil(min(N,1000)/100)
batches, each of size at most 100, whose in-order concatenation equals the
first min(N,1000) input entries. -/
theorem c1_batch_submitter (l : List α) :
    (chunkAnnotations (l.take 1000) 100).length = (min l.length 1000 + 99) / 100 ∧
    (∀ c ∈ chunkAnnotations (l.take 1000) 100, c.length ≤ 100) ∧
    (chunkAnnotations (l.take 1000) 100).flatten = l.take (min l.length 1000) := by
  have hlen : (l.take 1000).length = min l.length 1000 := by
    rw [List.length_take, Nat.min_comm]
  have htake : l.take (min l.length 1000) = l.take 1000 := by
    rcases le_total l.length 1000 with h | h
    · rw [Nat.min_eq_left h, List.take_length, List.take_of_length_le h]
    · rw [Nat.min_eq_right h]
  refine ⟨?_, ?_, ?_⟩
  · rw [chunkAnnotations_count 99 (l.take 1000).length (l.take 1000) (le_refl _), hlen]
  · exact chunkAnnotations_sizes 99 (l.take 1000).length (l.take 1000) (le_refl _)
  · rw [chunkAnnotations_join 99 (l.take 1000).length (l.take 1000) (le_refl _), htake]

/-- Witness for C1 at a concrete input: a list of 250 elements yields
3 batches of sizes at most 100 concatenating to the whole list. -/
theorem c1_batch_submitter_witness :
    (chunkAnnotations ((List.range 250).take 1000) 100).length =
        (min (List.range 250).length 1000 + 99) / 100 ∧
    (∀ c ∈ chunkAnnotations ((List.range 250).take 1000) 100, c.length ≤ 100) ∧
    (chunkAnnotations ((List.range 250).take 1000) 100).flatten =
        (List.range 250).take (min (List.range 250).length 1000) :=
  c1_batch_submitter (List.range 250)

/-- Console output and HTTP outcomes of a script run, abstracted as events. -/
inductive RunEvent where
  | auditFileNotFound
  | noVulnerabilitiesFound
  | severityHeader (sev : Str)
  | issueLine (pkg issue url : Str)
  | summaryPutFailed
  | batchSuccess (n : Nat)
  | batchError (n : Nat)
deriving DecidableEq

/-- Outcome of the batch-posting loop shared by the four scripts. -/
structure BatchLoopResult (α : Type) where
  attempted : List (List α)
  events : List RunEvent
  exitCode : Option Nat
deriving DecidableEq

/-- The batch loop body (npm_audit.py lines 121-133 and its copies):
post one batch per iteration, print a success line on a 2xx response and
continue, or print diagnostics and call `exit(failCode)` on the first
failure, leaving the remaining batches unattempted.  `resp idx` tells
whether request number `idx` received a 2xx response. -/
def runBatchLoopAux (failCode : Nat) (resp : Nat → Bool) :
    List (List α) → Nat → BatchLoopResult α
  | [], _ => ⟨[], [], none⟩
  | b :: bs, idx =>
      if resp idx then
        let r := runBatchLoopAux failCode resp bs (idx + 1)
        ⟨b :: r.attempted, RunEvent.batchSuccess (idx + 1) :: r.events, r.exitCode⟩
      else
        ⟨[b], [RunEvent.batchError (idx + 1)], some failCode⟩

def runBatchLoop (failCode : Nat) (resp : Nat → Bool) (batches : List (List α)) :
    BatchLoopResult α :=
  runBatchLoopAux failCode resp batches 0

/-- Exit status used on a failed annotation batch: npm_audit.py line 133 is
`exit(0)  # Exit on error`. -/
def npmAuditBatchFailExit : Nat := 0

/-- Exit status on a failed batch in create_bitbucket_test_report.py line 151:
`exit(0)  # Exit on error`. -/
def createTestReportBatchFailExit : Nat := 0

/-- Exit status on a failed batch in linting_error_report.py line 204:
`exit(0)  # Exit on error`. -/
def lintingErrorReportBatchFailExit : Nat := 0

/-- Exit status on a failed batch in Lint_groovy_report.py line 178: `exit(1)`. -/
def lintGroovyBatchFailExit : Nat := 1

/-- A `via` entry of one package of an npm audit document; every field is read
with a `.get` default (npm_audit.py lines 23-28). -/
structure VulnVia where
  severity : Option Str
  title : Option Str
  url : Option Str
deriving DecidableEq

/-- One package entry of the `vulnerabilities` mapping. -/
structure NpmPackageDetails where
  via : Option (List VulnVia)
deriving DecidableEq

/-- The parsed audit JSON; `data.get('vulnerabilities', {})` treats an absent
mapping as empty. -/
structure AuditDoc where
  vulnerabilities : Option (List (Str × NpmPackageDetails))
deriving DecidableEq

/-- A categorized issue (npm_audit.py lines 25-29). -/
structure NpmIssue where
  package : Str
  issue : Str
  url : Str
deriving DecidableEq

/-- `categorized.setdefault(severity, []).append(x)`: append to the list of an
existing key, else add the key at the end (Python dicts preserve insertion
order). -/
def setdefaultAppend (m : List (Str × List NpmIssue)) (k : Str) (x : NpmIssue) :
    List (Str × List NpmIssue) :=
  if m.any (fun p => p.1 = k) then
    m.map (fun p => if p.1 = k then (p.1, p.2 ++ [x]) else p)
  else
    m ++ [(k, [x])]

/-- The categorizing double loop of npm_audit.py lines 22-29. -/
def buildCategorized (vulns : List (Str × NpmPackageDetails)) :
    List (Str × List NpmIssue) :=
  vulns.foldl
    (fun acc p =>
      (p.2.via.getD []).foldl
        (fun acc2 v =>
          setdefaultAppend acc2 (v.severity.getD ("unknown").toList)
            ⟨p.1, v.title.getD ("Unknown issue").toList,
             v.url.getD ("No URL provided").toList⟩)
        acc)
    []

/-- The per-severity console listing of npm_audit.py lines 31-34. -/
def printCategorized (categorized : List (Str × List NpmIssue)) : List RunEvent :=
  categorized.flatMap (fun p =>
    RunEvent.severityHeader p.1 ::
      p.2.map (fun i => RunEvent.issueLine i.package i.issue i.url))

/-- `categorize_vulnerabilities` (npm_audit.py lines 7-36), with the input file
modelled as `none` when missing.  Returns the categorized mapping (`none` for
the two early `return` paths) together with the console output. -/
def categorizeVulnerabilities (file : Option AuditDoc) :
    Option (List (Str × List NpmIssue)) × List RunEvent :=
  match file with
  | none => (none, [RunEvent.auditFileNotFound])
  | some data =>
      match data.vulnerabilities.getD [] with
      | [] => (none, [RunEvent.noVulnerabilitiesFound])
      | v :: vs =>
          let categorized := buildCategorized (v :: vs)
          (some categorized, printCategorized categorized)

/-- Python's `str.upper` on the ASCII severity names. -/
def pyUpper (s : Str) : Str := s.map Char.toUpper

/-- The wire-format record built in npm_audit.py lines 103-110. -/
structure NpmAnnot where
  external_id : Str
  annotation_type : Str
  summary : Str
  result : Str
  severity : Str
  url : Str
deriving DecidableEq

/-- The annotation-building loop of npm_audit.py lines 100-111. -/
def npmAnnotsOf (categorized : List (Str × List NpmIssue)) : List NpmAnnot :=
  categorized.flatMap (fun p =>
    p.2.map (fun issue =>
      ⟨issue.package ++ ('_' :: issue.issue),
       ("VULNERABILITY").toList,
       ("Vulnerability in ").toList ++ issue.package ++ (": ").toList ++ issue.issue,
       ("FAILED").toList,
       pyUpper p.1,
       issue.url⟩))

/-- Observable outcome of one npm_audit.py run (environment variables present,
report PUT and annotation POSTs modelled by `putOk` and `postResp`). -/
structure NpmRunResult where
  events : List RunEvent
  summaryPut : Bool
  postedBatches : List (List NpmAnnot)
  exitCode : Nat
deriving DecidableEq

/-- The module-level flow of npm_audit.py lines 70-133: categorize the audit
file, always PUT the summary report (exit 1 on a failed PUT), then either
batch-post the annotations (exit status `npmAuditBatchFailExit = 0` on a
failed batch, 0 on completion) or, when `categorize_vulnerabilities`
returned a falsy value, exit 0 before the loop. -/
def npmAuditRun (file : Option AuditDoc) (putOk : Bool) (postResp : Nat → Bool) :
    NpmRunResult :=
  let cv := categorizeVulnerabilities file
  if putOk then
    match cv.1 with
    | some (c :: cs) =>
        let annotations := npmAnnotsOf (c :: cs)
        let annotationsToSend := annotations.take 1000
        let r := runBatchLoop npmAuditBatchFailExit postResp
          (chunkAnnotations annotationsToSend 100)
        ⟨cv.2 ++ r.events, true, r.attempted, r.exitCode.getD 0⟩
    | _ => ⟨cv.2, true, [], 0⟩
  else
    ⟨cv.2 ++ [RunEvent.summaryPutFailed], true, [], 1⟩

theorem runBatchLoopAux_abort (failCode : Nat) (resp : Nat → Bool) :
    ∀ (batches : List (List α)) (idx i : Nat), i < batches.length →
      resp (idx + i) = false → (∀ j, j < i → resp (idx + j) = true) →
      runBatchLoopAux failCode resp batches idx =
        ⟨batches.take (i + 1),
         ((List.range i).map (fun j => RunEvent.batchSuccess (idx + j + 1))) ++
           [RunEvent.batchError (idx + i + 1)],
         some failCode⟩ := by
  intro batches
  induction batches with
  | nil =>
      intro idx i hi _ _
      simp at hi
  | cons b bs ih =>
      intro idx i hi hfail hprev
      cases i with
      | zero =>
          have h0 : resp idx = false := by simpa using hfail
          simp [runBatchLoopAux, h0]
      | succ i' =>
          have h0 : resp idx = true := by
            have := hprev 0 (Nat.succ_pos i')
            simpa using this
          have hi' : i' < bs.length := by
            simp only [List.length_cons] at hi
            omega
          have hfail' : resp (idx + 1 + i') = false := by
            have h : idx + 1 + i' = idx + (i' + 1) := by omega
            rw [h]
            exact hfail
          have hprev' : ∀ j, j < i' → resp (idx + 1 + j) = true := by
            intro j hj
            have h : idx + 1 + j = idx + (j + 1) := by omega
            rw [h]
            exact hprev (j + 1) (by omega)
          simp only [runBatchLoopAux, h0, if_true]
          rw [ih (idx + 1) i' hi' hfail' hprev']
          simp only [List.take_succ_cons, List.range_succ_eq_map, List.map_cons,
            List.map_map, List.cons_append, Nat.add_zero, BatchLoopResult.mk.injEq]
          refine ⟨trivial, ?_, trivial⟩
          congr 1
          congr 1
          · apply List.map_congr_left
            intro j _
            simp only [Function.comp_apply]
            congr 1
            omega
          · have h : idx + 1 + i' + 1 = idx + (i' + 1) + 1 := by omega
            rw [h]

/-- An audit document with exactly one vulnerability, used as concrete input. -/
def auditDocOneVuln : AuditDoc :=
  ⟨some [(("p").toList,
    ⟨some [⟨some ("high").toList, some ("Title").toList, some ("u").toList⟩]⟩)]⟩

/-- C2 counterexample: in npm_audit.py a run whose single annotation batch
receives a non-2xx response prints the batch-error diagnostics and terminates
with exit status 0 (line 133 is `exit(0)`), not with a non-zero status as the
claim states. -/
theorem c2_counterexample :
    (npmAuditRun (some auditDocOneVuln) true (fun _ => false)).exitCode = 0 ∧
    RunEvent.batchError 1 ∈ (npmAuditRun (some auditDocOneVuln) true (fun _ => false)).events := by
  constructor
  · simp [npmAuditRun, auditDocOneVuln, categorizeVulnerabilities, buildCategorized,
      setdefaultAppend, npmAnnotsOf, chunkAnnotations, runBatchLoop, runBatchLoopAux,
      npmAuditBatchFailExit, printCategorized]
  · simp [npmAuditRun, auditDocOneVuln, categorizeVulnerabilities, buildCategorized,
      setdefaultAppend, npmAnnotsOf, chunkAnnotations, runBatchLoop, runBatchLoopAux,
      npmAuditBatchFailExit, printCategorized]

/-- C2 (amended): when batch number i+1 receives the first non-2xx response,
the loop attempts exactly the first i+1 batches, prints i success lines and
the error diagnostics, and terminates with the script's literal exit status -
which the sources fix at 0 for npm_audit.py, create_bitbucket_test_report.py
and linting_error_report.py, and at 1 for Lint_groovy_report.py. -/
theorem c2_batch_failure_aborts (failCode : Nat) (resp : Nat → Bool)
    (batches : List (List α)) (i : Nat) (hi : i < batches.length)
    (hfail : resp i = false) (hprev : ∀ j, j < i → resp j = true) :
    (runBatchLoop failCode resp batches).attempted = batches.take (i + 1) ∧
    (runBatchLoop failCode resp batches).events =
      ((List.range i).map (fun j => RunEvent.batchSuccess (j + 1))) ++
        [RunEvent.batchError (i + 1)] ∧
    (runBatchLoop failCode resp batches).exitCode = some failCode ∧
    npmAuditBatchFailExit = 0 ∧ createTestReportBatchFailExit = 0 ∧
    lintingErrorReportBatchFailExit = 0 ∧ lintGroovyBatchFailExit = 1 := by
  have h := runBatchLoopAux_abort failCode resp batches 0 i hi
    (by simpa using hfail) (fun j hj => by simpa using hprev j hj)
  rw [runBatchLoop, h]
  refine ⟨rfl, ?_, rfl, rfl, rfl, rfl, rfl⟩
  simp [Nat.zero_add]

/-- Witness for C2 (amended): two batches, first response non-2xx. -/
theorem c2_batch_failure_aborts_witness :
    (runBatchLoop 0 (fun _ => false) [[1], [2]]).attempted = [[1], [2]].take (0 + 1) ∧
    (runBatchLoop 0 (fun _ => false) [[1], [2]]).events =
      ((List.range 0).map (fun j => RunEvent.batchSuccess (j + 1))) ++
        [RunEvent.batchError (0 + 1)] ∧
    (runBatchLoop 0 (fun _ => false) [[1], [2]]).exitCode = some 0 ∧
    npmAuditBatchFailExit = 0 ∧ createTestReportBatchFailExit = 0 ∧
    lintingErrorReportBatchFailExit = 0 ∧ lintGroovyBatchFailExit = 1 :=
  c2_batch_failure_aborts 0 (fun _ => false) [[1], [2]] 0 (by decide) rfl
    (fun j hj => absurd hj (Nat.not_lt_zero j))

/-- C9: with an empty or absent `vulnerabilities` mapping, npm_audit.py prints
"No vulnerabilities found." and never reaches the annotation POST loop. -/
theorem c9_no_vulnerabilities (doc : AuditDoc) (putOk : Bool) (postResp : Nat → Bool)
    (h : doc.vulnerabilities = none ∨ doc.vulnerabilities = some []) :
    RunEvent.noVulnerabilitiesFound ∈ (npmAuditRun (some doc) putOk postResp).events ∧
    (npmAuditRun (some doc) putOk postResp).postedBatches = [] := by
  have hv : doc.vulnerabilities.getD [] = [] := by
    rcases h with h | h <;> simp [h]
  have hcv : categorizeVulnerabilities (some doc) =
      (none, [RunEvent.noVulnerabilitiesFound]) := by
    simp [categorizeVulnerabilities, hv]
  cases putOk <;> simp [npmAuditRun, hcv]

/-- Witness for C9: the audit document with no `vulnerabilities` key. -/
theorem c9_no_vulnerabilities_witness :
    ((AuditDoc.mk none).vulnerabilities = none ∨
      (AuditDoc.mk none).vulnerabilities = some []) ∧
    (RunEvent.noVulnerabilitiesFound ∈
      (npmAuditRun (some (AuditDoc.mk none)) true (fun _ => true)).events ∧
    (npmAuditRun (some (AuditDoc.mk none)) true (fun _ => true)).postedBatches = []) :=
  ⟨Or.inl rfl, c9_no_vulnerabilities ⟨none⟩ true (fun _ => true) (Or.inl rfl)⟩

/-- Errors that the Python runtime raises in the modelled fragments. -/
inductive PyError where
  | keyError
  | attributeError
deriving DecidableEq

/-- Result of running a Python fragment that may call `sys.exit` or raise. -/
inductive PyOutcome (α : Type) where
  | ok (a : α)
  | exited (code : Nat)
  | raised (e : PyError)
deriving DecidableEq

/-- One entry of `assertionResults`/`testResults` inside a per-file result of
a Jest/Vitest test-results document. -/
structure TestCase where
  title : Option Str
  status : Option Str
deriving DecidableEq

/-- One per-file entry of the top-level `testResults` list. -/
structure TestFileRes where
  assertionResults : Option (List TestCase)
  testResults : Option (List TestCase)
deriving DecidableEq

/-- The parsed test-results JSON document read by extract_test_result.py. -/
structure TestDoc where
  numTotalTests : Option Int
  numPassedTests : Option Int
  numFailedTests : Option Int
  numTodoTests : Option Int
  testResults : Option (List TestFileRes)
deriving DecidableEq

/-- Python's `a or b or []` on two optional lists (extract_test_result.py
line 60): `None` and the empty list are both falsy. -/
def pyOrCases (a b : Option (List TestCase)) : List TestCase :=
  match a with
  | some (x :: xs) => x :: xs
  | _ =>
      match b with
      | some (y :: ys) => y :: ys
      | _ => []

/-- A row of the `summary["tests"]` list (extract_test_result.py lines 63-66). -/
structure TestRow where
  test_name : Str
  status : Str
deriving DecidableEq

/-- The per-assertion rows collected by the nested loops of
extract_test_result.py lines 58-66. -/
def testsOf (data : TestDoc) : List TestRow :=
  (data.testResults.getD []).flatMap (fun tr =>
    (pyOrCases tr.assertionResults tr.testResults).map (fun a =>
      ⟨a.title.getD ("Unknown Test").toList, a.status.getD ("unknown").toList⟩))

/-- `df[df["status"] == filter_status]` (extract_test_result.py line 73):
`pd.DataFrame([])` has no columns, so selecting the `status` column of the
empty frame raises `KeyError`; on a non-empty frame it filters the rows. -/
def dfFilterStatus (rows : List TestRow) (fs : Str) : Except PyError (List TestRow) :=
  match rows with
  | [] => .error .keyError
  | _ :: _ => .ok (rows.filter (fun r => r.status = fs))

/-- The value returned by `extract_test_summary` (summary totals plus the
filtered detail rows). -/
structure TestSummaryRes where
  total_tests : Int
  passed_tests : Int
  failed_tests : Int
  todo_tests : Int
  details : List TestRow
deriving DecidableEq

/-- `extract_test_summary` (extract_test_result.py lines 36-100): exits with
status 1 when the input file is missing, reads the four totals with default 0,
collects the assertion rows, and filters them through the DataFrame when
`filter_status` is one of "passed"/"failed"/"todo".  The `debug` flag only
prints and does not affect the result. -/
def extractTestSummary (file : Option TestDoc) (debug : Bool)
    (filterStatus : Option Str) : PyOutcome TestSummaryRes :=
  match file with
  | none => .exited 1
  | some data =>
      let tests := testsOf data
      let dfRes : Except PyError (List TestRow) :=
        match filterStatus with
        | some fs =>
            if fs = ("passed").toList ∨ fs = ("failed").toList ∨ fs = ("todo").toList then
              dfFilterStatus tests fs
            else .ok tests
        | none => .ok tests
      match dfRes with
      | .error e => .raised e
      | .ok rows =>
          let _ := debug
          .ok ⟨data.numTotalTests.getD 0, data.numPassedTests.getD 0,
               data.numFailedTests.getD 0, data.numTodoTests.getD 0, rows⟩

/-- Is `filter_status in ["passed", "failed", "todo"]` true? -/
def filterActive (filterStatus : Option Str) : Bool :=
  match filterStatus with
  | some fs =>
      fs = ("passed").toList ∨ fs = ("failed").toList ∨ fs = ("todo").toList
  | none => false

/-- C6 counterexample: a well-formed test-results document with no test
entries, queried with filter status "failed", makes extract_test_result.py
raise KeyError at `df[df["status"] == filter_status]` (line 73), because the
DataFrame built from an empty list has no "status" column. -/
theorem c6_counterexample :
    extractTestSummary (some ⟨none, none, none, none, none⟩) false (some ("failed").toList) =
      .raised .keyError := by
  rfl

/-- C6 (amended): for every test-results document, extract_test_summary
returns the four totals, each equal to the corresponding input field or 0
when absent, and does not raise - provided the passed/failed/todo filter is
inactive or the document yields at least one test row; with an active filter
and zero test rows the empty-DataFrame column access raises KeyError. -/
theorem c6_summary_defaults (doc : TestDoc) (debug : Bool) (fs : Option Str)
    (h : filterActive fs = false ∨ testsOf doc ≠ []) :
    ∃ s, extractTestSummary (some doc) debug fs = .ok s ∧
      s.total_tests = doc.numTotalTests.getD 0 ∧
      s.passed_tests = doc.numPassedTests.getD 0 ∧
      s.failed_tests = doc.numFailedTests.getD 0 ∧
      s.todo_tests = doc.numTodoTests.getD 0 := by
  rcases fs with _ | s
  · exact ⟨_, rfl, rfl, rfl, rfl, rfl⟩
  · by_cases hc : s = ("passed").toList ∨ s = ("failed").toList ∨ s = ("todo").toList
    · have hfa : filterActive (some s) = true := by
        unfold filterActive
        exact decide_eq_true hc
      have htests : testsOf doc ≠ [] := by
        rcases h with h | h
        · rw [hfa] at h
          cases h
        · exact h
      cases ht : testsOf doc with
      | nil => exact absurd ht htests
      | cons r rs =>
          have hok : extractTestSummary (some doc) debug (some s) =
              .ok ⟨doc.numTotalTests.getD 0, doc.numPassedTests.getD 0,
                   doc.numFailedTests.getD 0, doc.numTodoTests.getD 0,
                   (r :: rs).filter (fun row => row.status = s)⟩ := by
            simp only [extractTestSummary, ht, if_pos hc, dfFilterStatus]
          exact ⟨_, hok, rfl, rfl, rfl, rfl⟩
    · have hok : extractTestSummary (some doc) debug (some s) =
          .ok ⟨doc.numTotalTests.getD 0, doc.numPassedTests.getD 0,
               doc.numFailedTests.getD 0, doc.numTodoTests.getD 0, testsOf doc⟩ := by
        simp only [extractTestSummary, if_neg hc]
      exact ⟨_, hok, rfl, rfl, rfl, rfl⟩

/-- A nested-shape test document with one failed test, used as concrete input. -/
def testDocOneFailed : TestDoc :=
  ⟨some 3, some 1, some 2, none,
   some [⟨some [⟨some ("t1").toList, some ("failed").toList⟩], none⟩]⟩

/-- Witness for C6 (amended) at a concrete document with one failed test and
an active "failed" filter. -/
theorem c6_summary_defaults_witness :
    (filterActive (some ("failed").toList) = false ∨ testsOf testDocOneFailed ≠ []) ∧
    (∃ s, extractTestSummary (some testDocOneFailed) false (some ("failed").toList) = .ok s ∧
      s.total_tests = testDocOneFailed.numTotalTests.getD 0 ∧
      s.passed_tests = testDocOneFailed.numPassedTests.getD 0 ∧
      s.failed_tests = testDocOneFailed.numFailedTests.getD 0 ∧
      s.todo_tests = testDocOneFailed.numTodoTests.getD 0) :=
  ⟨Or.inr (by decide),
   c6_summary_defaults testDocOneFailed false (some ("failed").toList) (Or.inr (by decide))⟩

/-- C5 counterexample: an npm_audit.py run whose report file is missing
prints the not-found message but still performs the summary-report PUT and
exits 0 - it does not exit immediately, and subsequent work is performed. -/
theorem c5_counterexample :
    (npmAuditRun none true (fun _ => true)).summaryPut = true ∧
    (npmAuditRun none true (fun _ => true)).exitCode = 0 ∧
    (npmAuditRun none true (fun _ => true)).events = [RunEvent.auditFileNotFound] := by
  exact ⟨rfl, rfl, rfl⟩

/-- C5 (amended): a missing input file makes extract_test_result.py exit 1
immediately (lines 39-41), while npm_audit.py only prints the message, still
sends the summary report, posts no annotation batches, and exits 0 when the
PUT succeeds (1 when it fails). -/
theorem c5_missing_file (debug : Bool) (fs : Option Str) (putOk : Bool)
    (postResp : Nat → Bool) :
    extractTestSummary none debug fs = .exited 1 ∧
    (npmAuditRun none putOk postResp).events.head? = some RunEvent.auditFileNotFound ∧
    (npmAuditRun none putOk postResp).postedBatches = [] ∧
    (npmAuditRun none putOk postResp).summaryPut = true ∧
    (npmAuditRun none putOk postResp).exitCode = (if putOk then 0 else 1) := by
  refine ⟨rfl, ?_, ?_, ?_, ?_⟩ <;> cases putOk <;> rfl

/-- Matcher for the tail `[0-9;]*m` of the ANSI regex `\x1b\[[0-9;]*m`
(extract_test_result.py line 107): consume digits and semicolons until the
final `m`, returning the remaining characters, or `none` when no match is
possible at this position. -/
def ansiSuffixAfterBracket : Str → Option Str
  | [] => none
  | c :: t =>
      if c = 'm' then some t
      else if c.isDigit || c = ';' then ansiSuffixAfterBracket t
      else none

theorem ansiSuffixAfterBracket_length :
    ∀ (t r : Str), ansiSuffixAfterBracket t = some r → r.length < t.length := by
  intro t
  induction t with
  | nil => intro r h; cases h
  | cons c t ih =>
      intro r h
      simp only [ansiSuffixAfterBracket] at h
      by_cases hm : c = 'm'
      · rw [if_pos hm] at h
        cases h
        simp
      · rw [if_neg hm] at h
        by_cases hd : c.isDigit || c = ';'
        · rw [if_pos hd] at h
          have := ih r h
          simp only [List.length_cons]
          omega
        · rw [if_neg hd] at h
          cases h

/-- Matcher for what follows the escape character in `\x1b\[[0-9;]*m`. -/
def tryAnsiMatch : Str → Option Str
  | [] => none
  | c :: t => if c = '[' then ansiSuffixAfterBracket t else none

theorem tryAnsiMatch_length :
    ∀ (s r : Str), tryAnsiMatch s = some r → r.length < s.length := by
  intro s r h
  cases s with
  | nil => cases h
  | cons c t =>
      simp only [tryAnsiMatch] at h
      by_cases hc : c = '['
      · rw [if_pos hc] at h
        have := ansiSuffixAfterBracket_length t r h
        simp only [List.length_cons]
        omega
      · rw [if_neg hc] at h
        cases h

/-- `remove_ansi_codes` (extract_test_result.py lines 106-108):
`re.sub(r'\x1b\[[0-9;]*m', '', text)`.  `re.sub` scans left to right and the
greedy `[0-9;]*` cannot backtrack onto a non-`m` character, so a match at an
escape character exists exactly when `tryAnsiMatch` succeeds. -/
def removeAnsiCodes : Str → Str
  | [] => []
  | c :: rest =>
      if c = '\x1b' then
        match h : tryAnsiMatch rest with
        | some rest2 => removeAnsiCodes rest2
        | none => c :: removeAnsiCodes rest
      else c :: removeAnsiCodes rest
termination_by s => s.length
decreasing_by
  · rename_i h
    have := tryAnsiMatch_length _ _ h
    simp only [List.length_cons]
    omega
  · simp
  · simp

/-- The lazy `.*?>` tail of `re.sub('<.*?>', '', text)`: find the first `>`
reachable without crossing a newline (`.` does not match `\n`), returning the
characters after it. -/
def findTagEnd : Str → Option Str
  | [] => none
  | c :: t =>
      if c = '>' then some t
      else if c = '\n' then none
      else findTagEnd t

theorem findTagEnd_length :
    ∀ (t r : Str), findTagEnd t = some r → r.length < t.length := by
  intro t
  induction t with
  | nil => intro r h; cases h
  | cons c t ih =>
      intro r h
      simp only [findTagEnd] at h
      by_cases hm : c = '>'
      · rw [if_pos hm] at h
        cases h
        simp
      · rw [if_neg hm] at h
        by_cases hn : c = '\n'
        · rw [if_pos hn] at h
          cases h
        · rw [if_neg hn] at h
          have := ih r h
          simp only [List.length_cons]
          omega

/-- `clean_html` (extract_test_result.py lines 110-112):
`re.sub('<.*?>', '', raw_text)`. -/
def cleanHtml : Str → Str
  | [] => []
  | c :: rest =>
      if c = '<' then
        match h : findTagEnd rest with
        | some rest2 => cleanHtml rest2
        | none => c :: cleanHtml rest
      else c :: cleanHtml rest
termination_by s => s.length
decreasing_by
  · rename_i h
    have := findTagEnd_length _ _ h
    simp only [List.length_cons]
    omega
  · simp
  · simp

/-- Python `text.replace(a, b)` for single-character `a` and `b`. -/
def pyReplaceChar (a b : Char) (s : Str) : Str :=
  s.map (fun c => if c = a then b else c)

/-- Python `text.replace(a, '')` for a single-character `a`. -/
def pyRemoveChar (a : Char) (s : Str) : Str :=
  s.filter (fun c => c != a)

/-- `clean_escape_characters` (extract_test_result.py lines 114-115):
`text.replace('\\', '/').replace('"', '"')` - the second replacement maps a
quote to itself and is therefore the identity, kept for faithfulness. -/
def cleanEscapeCharacters (text : Str) : Str :=
  pyReplaceChar '"' '"' (pyReplaceChar '\\' '/' text)

/-- `sanitize_description` (extract_test_result.py lines 117-123) with its
default `max_length=2000`: strip ANSI codes, strip HTML tags, normalize
backslashes (and the identity quote replacement), remove newlines, replace
backslashes again (a no-op by then), and truncate to 2000 characters. -/
def sanitizeDescription (description : Str) : Str :=
  (pyReplaceChar '\\' '/' (pyRemoveChar '\n'
    (cleanEscapeCharacters (cleanHtml (removeAnsiCodes description))))).take 2000

/-- A string contains an occurrence of the ANSI pattern `\x1b\[[0-9;]*m`
exactly when the substitution changes it (each removal deletes at least three
characters). -/
def containsAnsi (s : Str) : Prop := removeAnsiCodes s ≠ s

/-- A string contains a single-line `<...>` tag exactly when the substitution
changes it. -/
def containsHtmlTag (s : Str) : Prop := cleanHtml s ≠ s

/-- A failure message containing the ANSI sequence `\x1b[31m`, a second
escape character, and the HTML tags `<i>` and `<b>`. -/
def c4Input : Str := String.toList "\x1b[31m\x1b<i>[31m<b>"

/-- C4 counterexample: this input contains an ANSI escape sequence and an
HTML tag, yet its cleaned output is exactly the ANSI sequence `\x1b[31m`,
spliced together by the HTML-tag removals that run after ANSI stripping -
so the cleaned output does not "contain neither". -/
theorem c4_counterexample :
    containsAnsi c4Input ∧ containsHtmlTag c4Input ∧
    containsAnsi (sanitizeDescription c4Input) := by
  have h1 : removeAnsiCodes c4Input = String.toList "\x1b<i>[31m<b>" := by
    simp [c4Input, removeAnsiCodes, tryAnsiMatch, ansiSuffixAfterBracket]
  have h2 : cleanHtml c4Input = String.toList "\x1b[31m\x1b[31m" := by
    simp [c4Input, cleanHtml, findTagEnd]
  have h3 : sanitizeDescription c4Input = String.toList "\x1b[31m" := by
    rw [sanitizeDescription, h1]
    simp [cleanHtml, findTagEnd, cleanEscapeCharacters, pyReplaceChar, pyRemoveChar]
  have h4 : removeAnsiCodes (String.toList "\x1b[31m") = [] := by
    simp [removeAnsiCodes, tryAnsiMatch, ansiSuffixAfterBracket]
  refine ⟨?_, ?_, ?_⟩
  · show removeAnsiCodes c4Input ≠ c4Input
    rw [h1]
    decide
  · show cleanHtml c4Input ≠ c4Input
    rw [h2]
    decide
  · show removeAnsiCodes (sanitizeDescription c4Input) ≠ sanitizeDescription c4Input
    rw [h3, h4]
    decide

/-- C4 (amended): the cleaning pipeline applies ANSI-stripping, HTML-tag
stripping, backslash normalization, newline removal and truncation in the
order of `sanitize_description`; every output is at most 2000 characters and
free of newlines and backslashes.  (The "output contains neither an ANSI
sequence nor an HTML tag" consequence is refuted by the counterexample.) -/
theorem c4_sanitize (s : Str) :
    (sanitizeDescription s).length ≤ 2000 ∧
    '\n' ∉ sanitizeDescription s ∧
    '\\' ∉ sanitizeDescription s := by
  rw [sanitizeDescription]
  refine ⟨List.length_take_le _ _, ?_, ?_⟩
  · intro hmem
    have h1 := List.take_subset _ _ hmem
    rw [pyReplaceChar, List.mem_map] at h1
    rcases h1 with ⟨c, hc, heq⟩
    by_cases hbs : c = '\\'
    · rw [if_pos hbs] at heq
      exact absurd heq (by decide)
    · rw [if_neg hbs] at heq
      subst heq
      rw [pyRemoveChar, List.mem_filter] at hc
      have h2 := hc.2
      simp at h2
  · intro hmem
    have h1 := List.take_subset _ _ hmem
    rw [pyReplaceChar, List.mem_map] at h1
    rcases h1 with ⟨c, hc, heq⟩
    by_cases hbs : c = '\\'
    · rw [if_pos hbs] at heq
      exact absurd heq (by decide)
    · rw [if_neg hbs] at heq
      subst heq
      exact hbs rfl

/-- One entry of a file's `errors` list in the Groovy/Jenkins lint report;
every field is read with `.get` (Lint_groovy_report.py lines 54-56, 76). -/
structure LintError where
  line : Option Int
  rule : Option Str
  msg : Option Str
  severity : Option Str
deriving DecidableEq

/-- One value of the report's `files` mapping. -/
structure LintFileData where
  errors : Option (List LintError)
deriving DecidableEq

/-- The parsed lint report (`report_data.get("files", {})`). -/
structure LintReportData where
  files : Option (List (Str × LintFileData))
deriving DecidableEq

/-- Python's `str.lower` on the ASCII severity names. -/
def pyLower (s : Str) : Str := s.map Char.toLower

/-- `severity_map.get(..., "LOW")` with
`severity_map = {"info": "LOW", "warning": "MEDIUM", "error": "HIGH"}`
(Lint_groovy_report.py lines 45, 76). -/
def severityMap (s : Str) : Str :=
  if s = ("info").toList then ("LOW").toList
  else if s = ("warning").toList then ("MEDIUM").toList
  else if s = ("error").toList then ("HIGH").toList
  else ("LOW").toList

/-- The summary construction of Lint_groovy_report.py lines 58-62:
`summary = f"[{rule}] {msg}"`, truncated to 200 characters plus `"..."`
when longer than 200. -/
def lintSummary (rule msg : Str) : Str :=
  let summary := '[' :: (rule ++ (']' :: ' ' :: msg))
  if 200 < summary.length then summary.take 200 ++ ("...").toList else summary

/-- Rendering of `error.get("line")` inside an f-string: an absent value is
Python `None` and prints as "None". -/
def pyIntStr (line : Option Int) : Str :=
  match line with
  | some n => (toString n).toList
  | none => ("None").toList

/-- The candidate external id `f"{relative_path}-{line_number}-{rule}"`
(Lint_groovy_report.py line 64). -/
def extIdOf (relPath : Str) (e : LintError) : Str :=
  relPath ++ ('-' :: (pyIntStr e.line ++ ('-' :: e.rule.getD [])))

/-- The wire-format record built in Lint_groovy_report.py lines 70-77. -/
structure LintAnnot where
  external_id : Str
  annotation_type : Str
  path : Str
  line : Option Int
  summary : Str
  severity : Str
deriving DecidableEq

/-- The inner loop of `process_annotations` (Lint_groovy_report.py lines
53-78) over one file's errors: build the summary, compute the candidate id,
suffix it with `f"-{uuid.uuid4()}"` when it is already in `external_ids`
(adding it to the set only otherwise), and emit the annotation.  The state
`(S, k)` is the id set and the position in the uuid stream. -/
def processErrors (relPath : Str) (uuids : Nat → Str) :
    List LintError → List Str → Nat → List LintAnnot × List Str × Nat
  | [], S, k => ([], S, k)
  | e :: es, S, k =>
      let summary := lintSummary (e.rule.getD []) (e.msg.getD [])
      let cand := extIdOf relPath e
      let step : Str × List Str × Nat :=
        if cand ∈ S then (cand ++ ('-' :: uuids k), S, k + 1)
        else (cand, cand :: S, k)
      let a : LintAnnot :=
        ⟨step.1, ("CODE_SMELL").toList, relPath, e.line, summary,
         severityMap (pyLower (e.severity.getD []))⟩
      let rest := processErrors relPath uuids es step.2.1 step.2.2
      (a :: rest.1, rest.2)

/-- The outer loop of `process_annotations` (Lint_groovy_report.py lines
47-52): look the raw path up (the `find_file_path` walk over the external
filesystem is the `lookup` parameter), skip the file with a console
diagnostic when the lookup fails, normalize backslashes otherwise. -/
def processAnnotationsFiles (lookup : Str → Option Str) (uuids : Nat → Str) :
    List (Str × LintFileData) → List Str → Nat → List LintAnnot × List Str × Nat
  | [], S, k => ([], S, k)
  | (fp, fd) :: fs, S, k =>
      match lookup fp with
      | none => processAnnotationsFiles lookup uuids fs S k
      | some rel =>
          let relPath := pyReplaceChar '\\' '/' rel
          let r1 := processErrors relPath uuids (fd.errors.getD []) S k
          let r2 := processAnnotationsFiles lookup uuids fs r1.2.1 r1.2.2
          (r1.1 ++ r2.1, r2.2)

/-- `process_annotations` (Lint_groovy_report.py lines 42-79), returning the
annotation list together with the final id set and uuid-stream position. -/
def processAnnotations (lookup : Str → Option Str) (uuids : Nat → Str)
    (reportData : LintReportData) (S : List Str) (k : Nat) :
    List LintAnnot × List Str × Nat :=
  processAnnotationsFiles lookup uuids (reportData.files.getD []) S k

/-- The candidate ids of one file's errors, in emission order. -/
def errorCandidates (relPath : Str) (es : List LintError) : List Str :=
  es.map (extIdOf relPath)

/-- The candidate ids of a whole report, in emission order (skipped files
contribute nothing). -/
def fileCandidates (lookup : Str → Option Str)
    (files : List (Str × LintFileData)) : List Str :=
  files.flatMap (fun p =>
    match lookup p.1 with
    | none => []
    | some rel => errorCandidates (pyReplaceChar '\\' '/' rel) (p.2.errors.getD []))

/-- The candidate ids of a report document. -/
def reportCandidates (lookup : Str → Option Str) (reportData : LintReportData) :
    List Str :=
  fileCandidates lookup (reportData.files.getD [])

/-- A uuid-suffixed id is strictly longer than its candidate, hence distinct. -/
theorem suffix_ne (c u : Str) : c ++ ('-' :: u) ≠ c := by
  intro h
  have := congrArg List.length h
  simp at this

/-- De-duplication invariant of the inner loop: pairing each error's
candidate id with the emitted id, the pair `(c, c)` - an annotation emitted
with its candidate unsuffixed - occurs at most once, never when `c` was
already registered, and once emitted the candidate is registered. -/
theorem processErrors_invariant (relPath : Str) (uuids : Nat → Str) (c : Str) :
    ∀ (es : List LintError) (S : List Str) (k : Nat),
      (c ∈ S → List.count (c, c)
          ((errorCandidates relPath es).zip
            ((processErrors relPath uuids es S k).1.map (fun a => a.external_id))) = 0) ∧
      List.count (c, c)
          ((errorCandidates relPath es).zip
            ((processErrors relPath uuids es S k).1.map (fun a => a.external_id))) ≤ 1 ∧
      (1 ≤ List.count (c, c)
          ((errorCandidates relPath es).zip
            ((processErrors relPath uuids es S k).1.map (fun a => a.external_id))) →
        c ∈ (processErrors relPath uuids es S k).2.1) ∧
      (c ∈ S → c ∈ (processErrors relPath uuids es S k).2.1) := by
  intro es
  induction es with
  | nil =>
      intro S k
      refine ⟨fun _ => rfl, by simp [processErrors, errorCandidates], ?_, fun h => h⟩
      intro h
      simp [processErrors, errorCandidates] at h
  | cons e es ih =>
      intro S k
      by_cases hmem : extIdOf relPath e ∈ S
      · simp only [processErrors, errorCandidates, List.map_cons, if_pos hmem,
          List.zip_cons_cons, List.count_cons]
        have hne : ¬((extIdOf relPath e, extIdOf relPath e ++ ('-' :: uuids k)) = (c, c)) := by
          intro hp
          rw [Prod.mk.injEq] at hp
          exact suffix_ne c (uuids k) (hp.1 ▸ hp.2)
        obtain ⟨ih1, ih2, ih3, ih4⟩ := ih S (k + 1)
        simp only [beq_iff_eq, hne, if_false, Nat.add_zero]
        exact ⟨ih1, ih2, ih3, ih4⟩
      · simp only [processErrors, errorCandidates, List.map_cons, if_neg hmem,
          List.zip_cons_cons, List.count_cons]
        obtain ⟨ih1, ih2, ih3, ih4⟩ := ih (extIdOf relPath e :: S) k
        by_cases hc : extIdOf relPath e = c
        · subst hc
          have h0 : List.count (extIdOf relPath e, extIdOf relPath e)
              ((List.map (extIdOf relPath) es).zip
                (List.map (fun a => a.external_id)
                  (processErrors relPath uuids es (extIdOf relPath e :: S) k).1)) = 0 := by
            have h0a := ih1 (List.mem_cons_self _ _)
            simpa [errorCandidates] using h0a
          simp only [beq_self_eq_true, if_true, h0]
          refine ⟨fun h => absurd h hmem, by omega, fun _ => ?_, fun h => ?_⟩
          · exact ih4 (List.mem_cons_self _ _)
          · exact ih4 (List.mem_cons_of_mem _ h)
        · have hne : ¬((extIdOf relPath e, extIdOf relPath e) = (c, c)) := by
            intro hp
            rw [Prod.mk.injEq] at hp
            exact hc hp.1
          simp only [beq_iff_eq, hne, if_false, Nat.add_zero]
          exact ⟨fun h => ih1 (List.mem_cons_of_mem _ h), ih2, ih3,
            fun h => ih4 (List.mem_cons_of_mem _ h)⟩

theorem processErrors_length (relPath : Str) (uuids : Nat → Str) :
    ∀ (es : List LintError) (S : List Str) (k : Nat),
      (processErrors relPath uuids es S k).1.length = es.length := by
  intro es
  induction es with
  | nil => intro S k; rfl
  | cons e es ih =>
      intro S k
      simp only [processErrors, List.length_cons]
      rw [ih]

theorem fileCandidates_cons_none {lookup : Str → Option Str} {fp : Str}
    {fd : LintFileData} {fs : List (Str × LintFileData)} (h : lookup fp = none) :
    fileCandidates lookup ((fp, fd) :: fs) = fileCandidates lookup fs := by
  simp [fileCandidates, h]

theorem fileCandidates_cons_some {lookup : Str → Option Str} {fp rel : Str}
    {fd : LintFileData} {fs : List (Str × LintFileData)} (h : lookup fp = some rel) :
    fileCandidates lookup ((fp, fd) :: fs) =
      errorCandidates (pyReplaceChar '\\' '/' rel) (fd.errors.getD []) ++
        fileCandidates lookup fs := by
  simp [fileCandidates, h]

theorem processFiles_cons_none {lookup : Str → Option Str} {uuids : Nat → Str}
    {fp : Str} {fd : LintFileData} {fs : List (Str × LintFileData)}
    {S : List Str} {k : Nat} (h : lookup fp = none) :
    processAnnotationsFiles lookup uuids ((fp, fd) :: fs) S k =
      processAnnotationsFiles lookup uuids fs S k := by
  simp [processAnnotationsFiles, h]

theorem processFiles_cons_some {lookup : Str → Option Str} {uuids : Nat → Str}
    {fp rel : Str} {fd : LintFileData} {fs : List (Str × LintFileData)}
    {S : List Str} {k : Nat} (h : lookup fp = some rel) :
    processAnnotationsFiles lookup uuids ((fp, fd) :: fs) S k =
      ((processErrors (pyReplaceChar '\\' '/' rel) uuids (fd.errors.getD []) S k).1 ++
        (processAnnotationsFiles lookup uuids fs
          (processErrors (pyReplaceChar '\\' '/' rel) uuids (fd.errors.getD []) S k).2.1
          (processErrors (pyReplaceChar '\\' '/' rel) uuids (fd.errors.getD []) S k).2.2).1,
       (processAnnotationsFiles lookup uuids fs
          (processErrors (pyReplaceChar '\\' '/' rel) uuids (fd.errors.getD []) S k).2.1
          (processErrors (pyReplaceChar '\\' '/' rel) uuids (fd.errors.getD []) S k).2.2).2) := by
  simp [processAnnotationsFiles, h]

theorem processFiles_invariant (lookup : Str → Option Str) (uuids : Nat → Str) (c : Str) :
    ∀ (files : List (Str × LintFileData)) (S : List Str) (k : Nat),
      (c ∈ S → List.count (c, c)
          ((fileCandidates lookup files).zip
            ((processAnnotationsFiles lookup uuids files S k).1.map
              (fun a => a.external_id))) = 0) ∧
      List.count (c, c)
          ((fileCandidates lookup files).zip
            ((processAnnotationsFiles lookup uuids files S k).1.map
              (fun a => a.external_id))) ≤ 1 ∧
      (1 ≤ List.count (c, c)
          ((fileCandidates lookup files).zip
            ((processAnnotationsFiles lookup uuids files S k).1.map
              (fun a => a.external_id))) →
        c ∈ (processAnnotationsFiles lookup uuids files S k).2.1) ∧
      (c ∈ S → c ∈ (processAnnotationsFiles lookup uuids files S k).2.1) := by
  intro files
  induction files with
  | nil =>
      intro S k
      refine ⟨fun _ => rfl, by simp [processAnnotationsFiles, fileCandidates], ?_,
        fun h => h⟩
      intro h
      simp [processAnnotationsFiles, fileCandidates] at h
  | cons p fs ih =>
      obtain ⟨fp, fd⟩ := p
      intro S k
      cases hl : lookup fp with
      | none =>
          rw [fileCandidates_cons_none hl, processFiles_cons_none hl]
          exact ih S k
      | some rel =>
          rw [fileCandidates_cons_some hl, processFiles_cons_some hl]
          have hlen : (errorCandidates (pyReplaceChar '\\' '/' rel)
              (fd.errors.getD [])).length =
              ((processErrors (pyReplaceChar '\\' '/' rel) uuids
                (fd.errors.getD []) S k).1.map (fun a => a.external_id)).length := by
            rw [List.length_map, processErrors_length, errorCandidates]
            rw [List.length_map]
          rw [List.map_append, List.zip_append hlen, List.count_append]
          obtain ⟨e1, e2, e3, e4⟩ :=
            processErrors_invariant (pyReplaceChar '\\' '/' rel) uuids c
              (fd.errors.getD []) S k
          obtain ⟨f1, f2, f3, f4⟩ := ih
            (processErrors (pyReplaceChar '\\' '/' rel) uuids (fd.errors.getD []) S k).2.1
            (processErrors (pyReplaceChar '\\' '/' rel) uuids (fd.errors.getD []) S k).2.2
          refine ⟨?_, ?_, ?_, ?_⟩
          · intro hS
            rw [e1 hS, f1 (e4 hS)]
          · rcases Nat.eq_zero_or_pos (List.count (c, c)
              ((errorCandidates (pyReplaceChar '\\' '/' rel) (fd.errors.getD [])).zip
                ((processErrors (pyReplaceChar '\\' '/' rel) uuids
                  (fd.errors.getD []) S k).1.map (fun a => a.external_id)))) with h0 | h1
            · rw [h0]
              omega
            · have hmem := e3 h1
              rw [f1 hmem]
              omega
          · intro hsum
            rcases Nat.eq_zero_or_pos (List.count (c, c)
              ((fileCandidates lookup fs).zip
                ((processAnnotationsFiles lookup uuids fs
                  (processErrors (pyReplaceChar '\\' '/' rel) uuids
                    (fd.errors.getD []) S k).2.1
                  (processErrors (pyReplaceChar '\\' '/' rel) uuids
                    (fd.errors.getD []) S k).2.2).1.map (fun a => a.external_id)))) with h0 | h1
            · have h1' : 1 ≤ List.count (c, c)
                ((errorCandidates (pyReplaceChar '\\' '/' rel) (fd.errors.getD [])).zip
                  ((processErrors (pyReplaceChar '\\' '/' rel) uuids
                    (fd.errors.getD []) S k).1.map (fun a => a.external_id))) := by omega
              exact f4 (e3 h1')
            · exact f3 h1
          · intro hS
            exact f4 (e4 hS)

/-- A file lookup that resolves every raw path to `a`. -/
def lookup0 : Str → Option Str := fun _ => some (("a").toList)

/-- A uuid stream that always yields `u`. -/
def uuids0 : Nat → Str := fun _ => ("u").toList

/-- A lint error at line 1, rule `r`, message `m`, severity `error`. -/
def lintErr0 : LintError :=
  ⟨some 1, some (("r").toList), some (("m").toList), some (("error").toList)⟩

/-- A report with one file containing the same error twice, so both errors
compute the candidate external id `a-1-r`. -/
def rd0 : LintReportData := ⟨some [(("f").toList, ⟨some [lintErr0, lintErr0]⟩)]⟩

/-- C3 counterexample: on two findings with identical computed external_id,
the collision branch of Lint_groovy_report.py lines 65-68 emits the suffixed
id `a-1-r-u` but does not add it to the registry - `external_ids.add` runs
only in the `else` branch - so the claim's "rewritten ... before being added
to the registry" is false of the code: the final registry is `[a-1-r]` and
does not contain the emitted suffixed id. -/
theorem c3_counterexample :
    (processAnnotations lookup0 uuids0 rd0 [] 0).1.map (fun a => a.external_id) =
      [("a-1-r").toList, ("a-1-r-u").toList] ∧
    (processAnnotations lookup0 uuids0 rd0 [] 0).2.1 = [("a-1-r").toList] ∧
    ("a-1-r-u").toList ∉ (processAnnotations lookup0 uuids0 rd0 [] 0).2.1 := by
  refine ⟨?_, ?_, ?_⟩ <;> decide

/-- C3 (amended): in every run, no two annotations carry the same unsuffixed
external_id - for each candidate value `c`, at most one annotation is emitted
whose id equals its own candidate `c`, and none is when `c` is already in the
id registry (a collision is rewritten with a random uuid suffix; the suffixed
id itself is not inserted into the registry). -/
theorem c3_unsuffixed_unique (lookup : Str → Option Str) (uuids : Nat → Str)
    (reportData : LintReportData) (S : List Str) (k : Nat) (c : Str) :
    List.count (c, c)
        ((reportCandidates lookup reportData).zip
          ((processAnnotations lookup uuids reportData S k).1.map
            (fun a => a.external_id))) ≤ 1 ∧
    (c ∈ S → List.count (c, c)
        ((reportCandidates lookup reportData).zip
          ((processAnnotations lookup uuids reportData S k).1.map
            (fun a => a.external_id))) = 0) := by
  obtain ⟨f1, f2, _f3, _f4⟩ :=
    processFiles_invariant lookup uuids c (reportData.files.getD []) S k
  exact ⟨f2, f1⟩

/-- Witness for C3 (amended) at the duplicated-error report. -/
theorem c3_unsuffixed_unique_witness :
    List.count (("a-1-r").toList, ("a-1-r").toList)
        ((reportCandidates lookup0 rd0).zip
          ((processAnnotations lookup0 uuids0 rd0 [] 0).1.map
            (fun a => a.external_id))) ≤ 1 ∧
    List.count (("q").toList, ("q").toList)
        ((reportCandidates lookup0 rd0).zip
          ((processAnnotations lookup0 uuids0 rd0 [("q").toList] 0).1.map
            (fun a => a.external_id))) = 0 :=
  ⟨(c3_unsuffixed_unique lookup0 uuids0 rd0 [] 0 (("a-1-r").toList)).1,
   (c3_unsuffixed_unique lookup0 uuids0 rd0 [("q").toList] 0 (("q").toList)).2
     (by decide)⟩

/-- Without candidate collisions the uuid stream is never consulted: the
inner loop's result is independent of it. -/
theorem processErrors_nodup_eq (relPath : Str) (u1 u2 : Nat → Str) :
    ∀ (es : List LintError) (S : List Str) (k : Nat),
      (S ++ errorCandidates relPath es).Nodup →
      processErrors relPath u1 es S k = processErrors relPath u2 es S k := by
  intro es
  induction es with
  | nil => intro S k _; rfl
  | cons e es ih =>
      intro S k h
      have hcand : extIdOf relPath e ∉ S := by
        rw [errorCandidates, List.map_cons, List.nodup_append] at h
        exact fun hS => h.2.2 hS (List.mem_cons_self _ _)
      have hnext : ((extIdOf relPath e :: S) ++ errorCandidates relPath es).Nodup := by
        have hperm : (S ++ errorCandidates relPath (e :: es)).Perm
            (extIdOf relPath e :: (S ++ errorCandidates relPath es)) := by
          rw [errorCandidates, List.map_cons]
          exact List.perm_middle
        have h2 := hperm.nodup h
        simpa [errorCandidates] using h2
      simp only [processErrors, if_neg hcand]
      rw [ih (extIdOf relPath e :: S) k hnext]

/-- Without collisions, the id set after the inner loop is exactly the
reversed candidate list on top of the initial set. -/
theorem processErrors_set_eq (relPath : Str) (u : Nat → Str) :
    ∀ (es : List LintError) (S : List Str) (k : Nat),
      (S ++ errorCandidates relPath es).Nodup →
      (processErrors relPath u es S k).2.1 =
        (errorCandidates relPath es).reverse ++ S := by
  intro es
  induction es with
  | nil => intro S k _; simp [processErrors, errorCandidates]
  | cons e es ih =>
      intro S k h
      have hcand : extIdOf relPath e ∉ S := by
        rw [errorCandidates, List.map_cons, List.nodup_append] at h
        exact fun hS => h.2.2 hS (List.mem_cons_self _ _)
      have hnext : ((extIdOf relPath e :: S) ++ errorCandidates relPath es).Nodup := by
        have hperm : (S ++ errorCandidates relPath (e :: es)).Perm
            (extIdOf relPath e :: (S ++ errorCandidates relPath es)) := by
          rw [errorCandidates, List.map_cons]
          exact List.perm_middle
        have h2 := hperm.nodup h
        simpa [errorCandidates] using h2
      simp only [processErrors, if_neg hcand]
      rw [ih (extIdOf relPath e :: S) k hnext]
      simp [errorCandidates, List.append_assoc]

/-- File-level version: with pairwise distinct candidates that avoid the
initial set, the whole annotation-building result is uuid-independent. -/
theorem processFiles_nodup_eq (lookup : Str → Option Str) (u1 u2 : Nat → Str) :
    ∀ (files : List (Str × LintFileData)) (S : List Str) (k : Nat),
      (S ++ fileCandidates lookup files).Nodup →
      processAnnotationsFiles lookup u1 files S k =
        processAnnotationsFiles lookup u2 files S k := by
  intro files
  induction files with
  | nil => intro S k _; rfl
  | cons p fs ih =>
      obtain ⟨fp, fd⟩ := p
      intro S k h
      cases hl : lookup fp with
      | none =>
          rw [processFiles_cons_none hl, processFiles_cons_none hl]
          rw [fileCandidates_cons_none hl] at h
          exact ih S k h
      | some rel =>
          rw [fileCandidates_cons_some hl] at h
          have h' : ((S ++ errorCandidates (pyReplaceChar '\\' '/' rel)
              (fd.errors.getD [])) ++ fileCandidates lookup fs).Nodup := by
            rwa [List.append_assoc]
          have h1 : (S ++ errorCandidates (pyReplaceChar '\\' '/' rel)
              (fd.errors.getD [])).Nodup := h'.of_append_left
          have eq1 : processErrors (pyReplaceChar '\\' '/' rel) u1
              (fd.errors.getD []) S k =
            processErrors (pyReplaceChar '\\' '/' rel) u2 (fd.errors.getD []) S k :=
            processErrors_nodup_eq _ u1 u2 _ S k h1
          have hset : (processErrors (pyReplaceChar '\\' '/' rel) u2
              (fd.errors.getD []) S k).2.1 =
              (errorCandidates (pyReplaceChar '\\' '/' rel)
                (fd.errors.getD [])).reverse ++ S :=
            processErrors_set_eq _ u2 _ S k h1
          have hnext : ((processErrors (pyReplaceChar '\\' '/' rel) u2
              (fd.errors.getD []) S k).2.1 ++ fileCandidates lookup fs).Nodup := by
            rw [hset]
            have hperm : ((errorCandidates (pyReplaceChar '\\' '/' rel)
                (fd.errors.getD [])).reverse ++ S).Perm
                (S ++ errorCandidates (pyReplaceChar '\\' '/' rel)
                  (fd.errors.getD [])) :=
              ((List.reverse_perm _).append_right S).trans List.perm_append_comm
            exact ((hperm.append_right _).symm).nodup h'
          rw [processFiles_cons_some hl, processFiles_cons_some hl, eq1,
            ih _ _ hnext]

/-- C10: for a fixed report and fixed file-lookup result, if no two errors
compute the same candidate external_id, two runs of `process_annotations`
with different uuid streams produce identical results - randomness is never
consulted, so the output is reproducible except under id collisions. -/
theorem c10_deterministic (lookup : Str → Option Str) (reportData : LintReportData)
    (u1 u2 : Nat → Str) (h : (reportCandidates lookup reportData).Nodup) :
    processAnnotations lookup u1 reportData [] 0 =
      processAnnotations lookup u2 reportData [] 0 := by
  apply processFiles_nodup_eq
  simpa [reportCandidates] using h

/-- A second, distinct lint error (line 2), giving candidate id `a-2-r`. -/
def lintErr1 : LintError :=
  ⟨some 2, some (("r").toList), some (("m").toList), some (("warning").toList)⟩

/-- A report whose two errors compute distinct candidate ids. -/
def rd10 : LintReportData := ⟨some [(("f").toList, ⟨some [lintErr0, lintErr1]⟩)]⟩

/-- Witness for C10: a collision-free report processed with two different
uuid streams yields the same result. -/
theorem c10_deterministic_witness :
    (reportCandidates lookup0 rd10).Nodup ∧
    processAnnotations lookup0 (fun _ => ("x").toList) rd10 [] 0 =
      processAnnotations lookup0 (fun _ => ("y").toList) rd10 [] 0 :=
  ⟨by decide, c10_deterministic lookup0 rd10 _ _ (by decide)⟩

/-- Every built summary fits in 203 characters (200 plus the ellipsis). -/
theorem lintSummary_length (rule msg : Str) : (lintSummary rule msg).length ≤ 203 := by
  rw [lintSummary]
  by_cases h : 200 < ('[' :: (rule ++ (']' :: ' ' :: msg))).length
  · rw [if_pos h]
    rw [List.length_append, List.length_take]
    have := Nat.min_le_left 200 ('[' :: (rule ++ (']' :: ' ' :: msg))).length
    have h3 : (("...").toList).length = 3 := rfl
    omega
  · rw [if_neg h]
    omega

theorem processErrors_summary_bound (relPath : Str) (u : Nat → Str) :
    ∀ (es : List LintError) (S : List Str) (k : Nat) (x : LintAnnot),
      x ∈ (processErrors relPath u es S k).1 → x.summary.length ≤ 203 := by
  intro es
  induction es with
  | nil =>
      intro S k x hx
      simp [processErrors] at hx
  | cons e es ih =>
      intro S k x hx
      simp only [processErrors, List.mem_cons] at hx
      rcases hx with hx | hx
      · subst hx
        exact lintSummary_length _ _
      · exact ih _ _ x hx

theorem processFiles_summary_bound (lookup : Str → Option Str) (u : Nat → Str) :
    ∀ (files : List (Str × LintFileData)) (S : List Str) (k : Nat) (x : LintAnnot),
      x ∈ (processAnnotationsFiles lookup u files S k).1 → x.summary.length ≤ 203 := by
  intro files
  induction files with
  | nil =>
      intro S k x hx
      simp [processAnnotationsFiles] at hx
  | cons p fs ih =>
      obtain ⟨fp, fd⟩ := p
      intro S k x hx
      cases hl : lookup fp with
      | none =>
          rw [processFiles_cons_none hl] at hx
          exact ih S k x hx
      | some rel =>
          rw [processFiles_cons_some hl] at hx
          rw [List.mem_append] at hx
          rcases hx with hx | hx
          · exact processErrors_summary_bound _ u _ _ _ x hx
          · exact ih _ _ x hx

/-- C8: the summary `[{rule}] {msg}` is emitted unchanged when it is at most
200 characters, and truncated at 200 characters with the `...` marker
appended when longer; consequently every annotation emitted by
`process_annotations` carries a summary of at most 203 characters. -/
theorem c8_summary_truncation :
    (∀ rule msg : Str,
      (('[' :: (rule ++ (']' :: ' ' :: msg))).length ≤ 200 →
        lintSummary rule msg = '[' :: (rule ++ (']' :: ' ' :: msg))) ∧
      (200 < ('[' :: (rule ++ (']' :: ' ' :: msg))).length →
        lintSummary rule msg =
          ('[' :: (rule ++ (']' :: ' ' :: msg))).take 200 ++ ("...").toList ∧
        (lintSummary rule msg).length = 203) ∧
      (lintSummary rule msg).length ≤ 203) ∧
    (∀ (lookup : Str → Option Str) (uuids : Nat → Str) (reportData : LintReportData)
        (S : List Str) (k : Nat) (x : LintAnnot),
      x ∈ (processAnnotations lookup uuids reportData S k).1 →
        x.summary.length ≤ 203) := by
  constructor
  · intro rule msg
    refine ⟨?_, ?_, lintSummary_length rule msg⟩
    · intro h
      rw [lintSummary, if_neg (by omega)]
    · intro h
      constructor
      · rw [lintSummary, if_pos h]
      · rw [lintSummary, if_pos h, List.length_append, List.length_take,
          Nat.min_eq_left (by omega)]
        rfl
  · intro lookup uuids reportData S k x hx
    exact processFiles_summary_bound lookup uuids _ S k x hx

/-- The first annotation emitted for `rd0`: summary `[r] m`, severity HIGH. -/
def c8Annot : LintAnnot :=
  ⟨("a-1-r").toList, ("CODE_SMELL").toList, ("a").toList, some 1,
   ("[r] m").toList, ("HIGH").toList⟩

/-- Witness for C8: a short summary is emitted unchanged, and a concrete
emitted annotation obeys the bound. -/
theorem c8_summary_truncation_witness :
    lintSummary ("r").toList ("m").toList =
      '[' :: (("r").toList ++ (']' :: ' ' :: ("m").toList)) ∧
    c8Annot ∈ (processAnnotations lookup0 uuids0 rd0 [] 0).1 ∧
    c8Annot.summary.length ≤ 203 :=
  ⟨(c8_summary_truncation.1 (("r").toList) (("m").toList)).1 (by decide),
   by decide,
   c8_summary_truncation.2 lookup0 uuids0 rd0 [] 0 c8Annot (by decide)⟩

/-- One entry of a document's `FileChanges` list in the dotnet-format report
read by linting_error_report.py (lines 151-153: both keys are required). -/
structure FileChange where
  lineNumber : Int
  formatDescription : Str
deriving DecidableEq

/-- One document of the dotnet-format lint report (linting_error_report.py
lines 136-137: `FileName` and `FileChanges` are required keys). -/
structure LintDoc where
  fileName : Str
  fileChanges : List FileChange
deriving DecidableEq

/-- The wire-format record built in linting_error_report.py lines 164-172. -/
structure LERAnnot where
  external_id : Str
  annotation_type : Str
  path : Str
  line : Int
  summary : Str
  result : Str
  severity : Str
deriving DecidableEq

/-- The inner loop of linting_error_report.py lines 151-175: candidate id
`f"{relative_path} + {line_number}"`, uuid-suffixed on collision (lines
157-160), emitted as a CODE_SMELL/LOW annotation. -/
def lerProcessChanges (relPath : Str) (uuids : Nat → Str) :
    List FileChange → List Str → Nat → List LERAnnot × List Str × Nat
  | [], S, k => ([], S, k)
  | ch :: chs, S, k =>
      let id0 := relPath ++ (' ' :: '+' :: ' ' :: (toString ch.lineNumber).toList)
      let step : Str × List Str × Nat :=
        if id0 ∈ S then (id0 ++ ('-' :: uuids k), S, k + 1)
        else (id0, id0 :: S, k)
      let a : LERAnnot :=
        ⟨step.1, ("CODE_SMELL").toList, relPath, ch.lineNumber,
         ch.formatDescription, ("FAILED").toList, ("LOW").toList⟩
      let rest := lerProcessChanges relPath uuids chs step.2.1 step.2.2
      (a :: rest.1, rest.2)

/-- The annotation-building loop of linting_error_report.py lines 136-175:
for each document, `find_file_path` (the `lookup` parameter) is called and
its result is immediately dereferenced by
`relative_path.replace("\\", "/")` on line 143.  When the lookup returns
`None`, that call raises `AttributeError` and aborts the run - the
`if(relative_path == None): continue` guard on lines 146-148 sits after the
`replace` call and is unreachable. -/
def lerBuildAnnotations (lookup : Str → Option Str) (uuids : Nat → Str) :
    List LintDoc → List Str → Nat → Except PyError (List LERAnnot × List Str × Nat)
  | [], S, k => .ok ([], S, k)
  | d :: ds, S, k =>
      match lookup d.fileName with
      | none => .error .attributeError
      | some rel =>
          let relPath := pyReplaceChar '\\' '/' rel
          let r1 := lerProcessChanges relPath uuids d.fileChanges S k
          match lerBuildAnnotations lookup uuids ds r1.2.1 r1.2.2 with
          | .error e => .error e
          | .ok r2 => .ok (r1.1 ++ r2.1, r2.2)

/-- A lint document whose file name matches nothing under the search root. -/
def c7Doc : LintDoc := ⟨("Ghost.cs").toList, [⟨1, ("x").toList⟩]⟩

/-- C7: evaluating linting_error_report.py's annotation loop at a report
entry whose path matches no file aborts the run with `AttributeError`
(`None.replace`), instead of dropping the entry and continuing as the claim
- and the script's own `continue` comment - intend; with a resolvable path
the same loop emits the annotation normally. -/
theorem c7_missing_path_crash :
    lerBuildAnnotations (fun _ => none) (fun _ => []) [c7Doc] [] 0 =
      .error .attributeError ∧
    lerBuildAnnotations (fun _ => some (("Ghost.cs").toList)) (fun _ => []) [c7Doc] [] 0 =
      .ok ([⟨("Ghost.cs + 1").toList, ("CODE_SMELL").toList, ("Ghost.cs").toList, 1,
        ("x").toList, ("FAILED").toList, ("LOW").toList⟩], [("Ghost.cs + 1").toList], 0) := by
  constructor
  · rfl
  · rfl
